import Mathlib

/-!
Verification of the WebAmpers audio-processing backend.

The development shallowly embeds the two source modules:

* `src/backend/app.py` — the Flask request layer (`allowed_file`, the
  `/convert`, `/merge`, `/export`, `/metadata` handlers, keyword-based
  exception classification, temp-file cleanup);
* `src/backend/audio_processor.py` — the `AudioProcessor` class
  (`_validate_format`, `_generate_output_path`, `convert_format`,
  `merge_files`, `export_with_settings`, `trim_audio`, `cleanup_old_files`).

External effects (the pydub library, the filesystem) are modelled by
explicit outcome parameters: a library call either returns an output path
or raises with a message; saving an upload succeeds; removing a file
during handler cleanup succeeds; `cleanup_old_files` takes a folder state
recording, per entry, whether `os.remove` would raise `OSError`.
Werkzeug's `secure_filename` sanitizer is an external dependency and is
abstracted away in upload path names (no claim inspects them).
-/

namespace WebAmpers

/-- Python `str.lower` restricted to the characters appearing in this
development (ASCII format names and file names). -/
def lowerChars (l : List Char) : List Char := l.map Char.toLower

/-- Lowercase a string, as Python `s.lower()`. -/
def strLower (s : String) : String := String.mk (lowerChars s.data)

/-- Boolean test that the first list starts the second, used to
implement substring search. -/
def isPrefixB : List Char → List Char → Bool
  | [], _ => true
  | _ :: _, [] => false
  | a :: as, b :: bs => a == b && isPrefixB as bs

/-- Does `needle` occur as a contiguous substring of the second list?
This is the semantics of Python's `needle in hay` on strings. -/
def containsSub (needle : List Char) : List Char → Bool
  | [] => isPrefixB needle []
  | c :: cs => isPrefixB needle (c :: cs) || containsSub needle cs

/-- Python `needle in hay` for strings. -/
def strContainsSub (hay needle : String) : Bool := containsSub needle.data hay.data

/-- Parse a nonempty all-digit character list as a natural number. -/
def parseDigits : List Char → Option Nat
  | [] => none
  | l =>
    if l.all (fun c => c.isDigit) then
      some (l.foldl (fun n c => n * 10 + (c.toNat - 48)) 0)
    else
      none

/-- Python `int(s)` on the forms exercised here: an optional sign
followed by decimal digits; anything else raises `ValueError`
(modelled as `none`). -/
def pyInt (s : String) : Option Int :=
  match s.data with
  | '+' :: rest => (parseDigits rest).map (fun n => (n : Int))
  | '-' :: rest => (parseDigits rest).map (fun n => -(n : Int))
  | l => (parseDigits l).map (fun n => (n : Int))

/-! ### app.py constants and helpers -/

/-- `ALLOWED_EXTENSIONS = {'wav', 'mp3', 'ogg', 'flac'}` from `app.py`. -/
def ALLOWED_EXTENSIONS : List String := ["wav", "mp3", "ogg", "flac"]

/-- `UPLOAD_FOLDER = 'uploads'` from `app.py`. -/
def UPLOAD_FOLDER : String := "uploads"

/-- The part of the list after its last `'.'`:
`some r` when the list is `pre ++ '.' :: r` with `'.' ∉ r`, else `none`.
This is Python's `filename.rsplit('.', 1)[1]` when a dot is present. -/
def afterLastDotList : List Char → Option (List Char)
  | [] => none
  | c :: cs =>
    match afterLastDotList cs with
    | some r => some r
    | none => if c = '.' then some cs else none

/-- `allowed_file` from `app.py`:
`'.' in filename and filename.rsplit('.', 1)[1].lower() in ALLOWED_EXTENSIONS`. -/
def allowed_file (filename : String) : Bool :=
  filename.data.contains '.' &&
    (match afterLastDotList filename.data with
     | some ext => ALLOWED_EXTENSIONS.contains (String.mk (lowerChars ext))
     | none => false)

/-! ### AudioProcessor (audio_processor.py) -/

/-- `AudioProcessor.supported_formats`. -/
def supported_formats : List String := ["wav", "mp3", "ogg", "flac", "m4a"]

/-- `AudioProcessor.CLEANUP_THRESHOLD_SECONDS = 3600`. -/
def CLEANUP_THRESHOLD_SECONDS : Int := 3600

/-- The `ValueError` message raised by `AudioProcessor._validate_format`
for an unsupported format (join order of the set fixed arbitrarily;
no claim depends on it). -/
def unsupportedFormatMsg (fmt : String) : String :=
  "Unsupported format: " ++ fmt ++ ". Supported formats: wav, mp3, ogg, flac, m4a"

/-- Is the (lowercased) format in `AudioProcessor.supported_formats`? -/
def formatSupported (fmt : String) : Bool :=
  supported_formats.contains (strLower fmt)

/-- `AudioProcessor._validate_format`: raises `ValueError` (the error
message) when the lowercased format is not supported. -/
def validate_format (fmt : String) : Except String Unit :=
  if formatSupported fmt then Except.ok () else Except.error (unsupportedFormatMsg fmt)

/-- `AudioProcessor._generate_output_path`: `{folder}/{uuid}_{suffix}.{ext}`. -/
def generate_output_path (folder uuidHex suffix ext : String) : String :=
  folder ++ "/" ++ uuidHex ++ "_" ++ suffix ++ "." ++ ext

/-- Outcome of the external pydub/ffmpeg part of a processor operation,
once validation has passed: either the produced output path, or the
message of the exception it raised. -/
inductive LibOutcome where
  | ok (path : String)
  | fail (msg : String)
deriving Repr, DecidableEq

/-- Error kinds raised by `AudioProcessor` operations: Python
`ValueError` versus `AudioProcessingError`, each carrying its message. -/
inductive ProcError where
  | valueError (msg : String)
  | processingError (msg : String)
deriving Repr, DecidableEq

/-- `AudioProcessor.convert_format`: validate the target format, then
run the external decode/encode (its outcome supplied by `lib`). -/
def convert_format (lib : LibOutcome) (target_format : String) : Except String String :=
  match validate_format target_format with
  | Except.error m => Except.error m
  | Except.ok _ =>
    match lib with
    | LibOutcome.ok p => Except.ok p
    | LibOutcome.fail m => Except.error m

/-- `AudioProcessor.merge_files`: needs at least two paths, validates the
output format, then runs the external fold/encode. -/
def merge_files (lib : LibOutcome) (file_paths : List String)
    (output_format : String) : Except String String :=
  if file_paths.length < 2 then
    Except.error "Need at least 2 files to merge"
  else
    match validate_format output_format with
    | Except.error m => Except.error m
    | Except.ok _ =>
      match lib with
      | LibOutcome.ok p => Except.ok p
      | LibOutcome.fail m => Except.error m

/-- `AudioProcessor.export_with_settings`: validate the target format,
then run the external normalize/resample/encode pipeline. -/
def export_with_settings (lib : LibOutcome) (target_format : String) :
    Except String String :=
  match validate_format target_format with
  | Except.error m => Except.error m
  | Except.ok _ =>
    match lib with
    | LibOutcome.ok p => Except.ok p
    | LibOutcome.fail m => Except.error m

/-- `AudioProcessor.trim_audio` on an input that loads successfully with
duration `duration_ms`: validates the format, checks the time range, and
exports to `{uuid}_trimmed.{ext}` in the processor's folder. -/
def trim_audio (folder uuidHex : String) (duration_ms start_ms end_ms : Int)
    (output_format : String) : Except ProcError String :=
  match validate_format output_format with
  | Except.error m => Except.error (ProcError.valueError m)
  | Except.ok _ =>
    if start_ms < 0 || end_ms > duration_ms || start_ms >= end_ms then
      Except.error (ProcError.valueError
        ("Invalid time range: " ++ toString start_ms ++ "-" ++ toString end_ms ++
          "ms (audio duration: " ++ toString duration_ms ++ "ms)"))
    else
      Except.ok (generate_output_path folder uuidHex "trimmed" output_format)

/-! ### cleanup_old_files -/

/-- One entry of the processor's output directory, together with the
environment fact of whether `os.remove` on it would raise `OSError`. -/
structure DirEntry where
  name : String
  isDir : Bool
  mtime : Int
  removeFails : Bool
deriving Repr, DecidableEq

/-- State of the processor's output directory:
whether `os.path.exists` sees it, whether `os.listdir` raises, and its
entries in listing order. -/
structure FolderState where
  present : Bool
  listdirFails : Bool
  entries : List DirEntry
deriving Repr, DecidableEq

/-- The `for` loop of `cleanup_old_files`: directories are skipped, old
files are removed and counted, and a failing `os.remove` raises
`OSError` out of the loop, leaving the failing entry and everything
after it untouched. Returns the count and the surviving entries. -/
def cleanupLoop (cutoff : Int) : List DirEntry → Nat × List DirEntry
  | [] => (0, [])
  | e :: es =>
    if e.isDir then
      let r := cleanupLoop cutoff es
      (r.1, e :: r.2)
    else if e.mtime < cutoff then
      if e.removeFails then
        (0, e :: es)
      else
        let r := cleanupLoop cutoff es
        (r.1 + 1, r.2)
    else
      let r := cleanupLoop cutoff es
      (r.1, e :: r.2)

/-- An entry that the sweep tries to delete: a non-directory whose
modification time is older than the cutoff. -/
def oldRemovable (cutoff : Int) (e : DirEntry) : Bool :=
  !e.isDir && decide (e.mtime < cutoff)

/-- The entries an error-free sweep leaves behind: directories and
fresh files. -/
def survivors (cutoff : Int) (l : List DirEntry) : List DirEntry :=
  l.filter (fun e => !oldRemovable cutoff e)

/-- Number of entries an error-free sweep deletes. -/
def staleCount (cutoff : Int) (l : List DirEntry) : Nat :=
  (l.filter (oldRemovable cutoff)).length

/-- `AudioProcessor.cleanup_old_files` at wall-clock time `now`: returns
the number of files removed and the resulting folder state. A missing
folder or a failing `os.listdir` yields 0 with nothing removed; an
`OSError` inside the loop is caught outside the loop, so the count
accumulated so far is returned and the sweep stops. -/
def cleanup_old_files (now : Int) (st : FolderState) : Nat × FolderState :=
  let cutoff := now - CLEANUP_THRESHOLD_SECONDS
  if st.present = false then
    (0, st)
  else if st.listdirFails then
    (0, st)
  else
    let r := cleanupLoop cutoff st.entries
    (r.1, { st with entries := r.2 })

/-! ### Flask request layer (app.py) -/

/-- An uploaded multipart file part; only its filename is inspected by the
request layer (the bytes go straight to disk). -/
structure FilePart where
  filename : String
deriving Repr, DecidableEq

/-- Python truthiness test for an optional form field:
`request.form.get(k)` is falsy when the field is absent or empty. -/
def falsy : Option String → Bool
  | none => true
  | some s => s == ""

/-- Value of a form field known to be present (used after a `falsy` check). -/
def getStr : Option String → String
  | none => ""
  | some s => s

/-- Path under `UPLOAD_FOLDER` where an upload is saved:
`uploads/{uuid}_{tag}{filename}` (werkzeug's `secure_filename` sanitizer,
an external dependency, is abstracted away). -/
def mkUploadPath (uuidHex tag fname : String) : String :=
  UPLOAD_FOLDER ++ "/" ++ uuidHex ++ "_" ++ tag ++ fname

/-- An HTTP response produced by a handler: an error/JSON payload with a
status code, a 200 JSON body (for `/metadata`), or a 200 `send_file`
attachment with its download name. -/
inductive Resp where
  | json (status : Nat) (error : String)
  | jsonOk (body : String)
  | fileAttachment (path downloadName : String)
deriving Repr, DecidableEq

/-- HTTP status of a response (`send_file` and `jsonify(...), 200` are 200). -/
def Resp.status : Resp → Nat
  | Resp.json s _ => s
  | Resp.jsonOk _ => 200
  | Resp.fileAttachment _ _ => 200

/-- Result of running a handler: the response, how many times the
processor operation backing the endpoint was invoked, every temp path
the handler saved to disk, and the temp paths still on disk once the
handler (and, for streamed responses, the `call_on_close` cleanup hook)
has finished. -/
structure HResult where
  resp : Resp
  invoked : Nat
  saved : List String
  leftover : List String
deriving Repr, DecidableEq

/-- Per-request environment for `/convert`, `/export` and `/metadata`:
the generated uuid hex and the outcome of the external library part of
the processor call. -/
structure ReqEnv where
  uuid : String
  lib : LibOutcome
deriving Repr, DecidableEq

/-- Keyword list of `/merge`'s exception classifier (`app.py` line 158). -/
def mergeKeywords : List String := ["Invalid file", "At least 2 files", "Missing output_format"]

/-- Keyword list of `/export`'s exception classifier (`app.py` line 227). -/
def exportKeywords : List String := ["Sample rate must be", "Missing required"]

/-- Status chosen by the keyword classifiers:
`400 if any(kw in str(exc) for kw in error_keywords) else 500`. -/
def classify (kws : List String) (msg : String) : Nat :=
  if kws.any (fun k => strContainsSub msg k) then 400 else 500

/-- `convert_audio` (`POST /convert`) from `app.py`. -/
def convert_audio (file : Option FilePart) (target_format : Option String)
    (env : ReqEnv) : HResult :=
  match file with
  | none => ⟨Resp.json 400 "No file provided", 0, [], []⟩
  | some f =>
    if f.filename == "" then
      ⟨Resp.json 400 "No file selected", 0, [], []⟩
    else if falsy target_format then
      ⟨Resp.json 400 "Missing target_format parameter", 0, [], []⟩
    else
      let tf := strLower (getStr target_format)
      if !allowed_file f.filename then
        ⟨Resp.json 400 "Invalid file type", 0, [], []⟩
      else if !ALLOWED_EXTENSIONS.contains tf then
        ⟨Resp.json 400 "Invalid target format", 0, [], []⟩
      else
        let input_path := mkUploadPath env.uuid "input_" f.filename
        match convert_format env.lib tf with
        | Except.ok output_path =>
          ⟨Resp.fileAttachment output_path ("converted." ++ tf), 1,
            [input_path, output_path], []⟩
        | Except.error m =>
          ⟨Resp.json 500 m, 1, [input_path], []⟩

/-- The validate-then-save loop of `merge_audio`: each file's extension
is checked just before saving it, so on the first invalid file the
paths saved so far (carried in the error) are cleaned up and a 400 is
returned. On success, returns the saved paths in order. -/
def mergeSaveLoop (uuids : Nat → String) : List FilePart → Nat →
    Except (String × List String) (List String)
  | [], _ => Except.ok []
  | f :: fs, i =>
    if !allowed_file f.filename then
      Except.error (f.filename, [])
    else
      let path := mkUploadPath (uuids i) "" f.filename
      match mergeSaveLoop uuids fs (i + 1) with
      | Except.error r => Except.error (r.1, path :: r.2)
      | Except.ok ps => Except.ok (path :: ps)

/-- Per-request environment for `/merge`: the uuid generated for the
`i`-th saved file and the outcome of the external merge. -/
structure MergeEnv where
  uuids : Nat → String
  lib : LibOutcome

/-- `merge_audio` (`POST /merge`) from `app.py`. -/
def merge_audio (files : List FilePart) (output_format : Option String)
    (env : MergeEnv) : HResult :=
  if files.length < 2 then
    ⟨Resp.json 400 "At least 2 files required for merging", 0, [], []⟩
  else if falsy output_format then
    ⟨Resp.json 400 "Missing output_format parameter", 0, [], []⟩
  else
    let fmt := strLower (getStr output_format)
    match mergeSaveLoop env.uuids files 0 with
    | Except.error r =>
      ⟨Resp.json 400 ("Invalid file type: " ++ r.1), 0, r.2, []⟩
    | Except.ok file_paths =>
      match merge_files env.lib file_paths fmt with
      | Except.ok output_path =>
        ⟨Resp.fileAttachment output_path ("merged." ++ fmt), 1,
          file_paths ++ [output_path], []⟩
      | Except.error m =>
        ⟨Resp.json (classify mergeKeywords m) m, 1, file_paths, []⟩

/-- `export_audio` (`POST /export`) from `app.py`. A non-integer
`sample_rate` raises `ValueError("Sample rate must be an integer")`,
which the outer handler classifies by its keyword list. -/
def export_audio (file : Option FilePart) (format_ bitrate sample_rate : Option String)
    (env : ReqEnv) : HResult :=
  match file with
  | none => ⟨Resp.json 400 "No file provided", 0, [], []⟩
  | some f =>
    if falsy format_ || falsy bitrate || falsy sample_rate then
      ⟨Resp.json 400 "Missing required export settings (format, bitrate, or sample_rate)",
        0, [], []⟩
    else
      let fmt := strLower (getStr format_)
      if !allowed_file f.filename then
        ⟨Resp.json 400 "Invalid file type", 0, [], []⟩
      else
        let input_path := mkUploadPath env.uuid "" f.filename
        match pyInt (getStr sample_rate) with
        | none =>
          ⟨Resp.json (classify exportKeywords "Sample rate must be an integer")
            "Sample rate must be an integer", 0, [input_path], []⟩
        | some _ =>
          match export_with_settings env.lib fmt with
          | Except.ok output_path =>
            ⟨Resp.fileAttachment output_path ("export." ++ fmt), 1,
              [input_path, output_path], []⟩
          | Except.error m =>
            ⟨Resp.json (classify exportKeywords m) m, 1, [input_path], []⟩

/-- Per-request environment for `/metadata`: the generated uuid and the
outcome of `get_audio_info` (an uninterpreted metadata JSON body, or the
message of the exception it raised). -/
structure MetaEnv where
  uuid : String
  info : Except String String
deriving Repr

/-- `get_metadata` (`POST /metadata`) from `app.py`: the saved temp file
is removed in a `finally` block on every path. -/
def get_metadata (file : Option FilePart) (env : MetaEnv) : HResult :=
  match file with
  | none => ⟨Resp.json 400 "No file provided", 0, [], []⟩
  | some f =>
    if !allowed_file f.filename then
      ⟨Resp.json 400 "Invalid file type", 0, [], []⟩
    else
      let filepath := mkUploadPath env.uuid "" f.filename
      match env.info with
      | Except.ok body => ⟨Resp.jsonOk body, 1, [filepath], []⟩
      | Except.error m => ⟨Resp.json 500 m, 1, [filepath], []⟩

/-! ## Helper lemmas -/

theorem afterLastDotList_eq_none (l : List Char) (h : '.' ∉ l) :
    afterLastDotList l = none := by
  induction l with
  | nil => rfl
  | cons c cs ih =>
    have hc : ¬ c = '.' := by intro e; exact h (by simp [e])
    have hcs : '.' ∉ cs := fun m => h (List.mem_cons_of_mem c m)
    simp only [afterLastDotList, ih hcs, hc, if_false]

theorem not_mem_of_afterLastDotList_eq_none (l : List Char)
    (h : afterLastDotList l = none) : '.' ∉ l := by
  induction l with
  | nil => simp
  | cons c cs ih =>
    simp only [afterLastDotList] at h
    cases hcs : afterLastDotList cs with
    | some r => rw [hcs] at h; exact absurd h (by simp)
    | none =>
      rw [hcs] at h
      by_cases hc : c = '.'
      · simp [hc] at h
      · intro hm
        rcases List.mem_cons.mp hm with he | hm
        · exact hc he.symm
        · exact ih hcs hm

theorem afterLastDotList_spec (l r : List Char) :
    afterLastDotList l = some r ↔ ∃ pre, l = pre ++ '.' :: r ∧ '.' ∉ r := by
  constructor
  · intro h
    induction l generalizing r with
    | nil => exact absurd h (by simp [afterLastDotList])
    | cons c cs ih =>
      simp only [afterLastDotList] at h
      cases hcs : afterLastDotList cs with
      | some r' =>
        rw [hcs] at h
        have hr : r' = r := by simpa using h
        subst hr
        obtain ⟨pre, hpre, hnod⟩ := ih r' hcs
        exact ⟨c :: pre, by rw [List.cons_append, hpre], hnod⟩
      | none =>
        rw [hcs] at h
        by_cases hc : c = '.'
        · rw [if_pos hc] at h
          have hr : cs = r := by simpa using h
          subst hr
          subst hc
          exact ⟨[], rfl, not_mem_of_afterLastDotList_eq_none cs hcs⟩
        · rw [if_neg hc] at h
          exact absurd h (by simp)
  · rintro ⟨pre, rfl, hnod⟩
    induction pre with
    | nil =>
      simp only [List.nil_append, afterLastDotList,
        afterLastDotList_eq_none r hnod]
      simp
    | cons p ps ih =>
      simp only [List.cons_append, afterLastDotList, List.append_eq, ih]

/-! ## Claim theorems -/

/-- C10: `allowed_file(filename)` returns true if and only if the name
contains a dot and the part after its last dot, lowercased, is one of
`wav`, `mp3`, `ogg`, `flac`; in particular `track.WAV` is accepted and
`noextension` is rejected. -/
theorem c10_allowed_file_characterization :
    (∀ f : String, allowed_file f = true ↔
      ∃ pre ext, f.data = pre ++ '.' :: ext ∧ '.' ∉ ext ∧
        ALLOWED_EXTENSIONS.contains (String.mk (lowerChars ext)) = true) ∧
    allowed_file "track.WAV" = true ∧ allowed_file "noextension" = false := by
  refine ⟨fun f => ?_, by decide, by decide⟩
  constructor
  · intro h
    unfold allowed_file at h
    rw [Bool.and_eq_true] at h
    obtain ⟨_, hmatch⟩ := h
    cases hend : afterLastDotList f.data with
    | none => rw [hend] at hmatch; exact absurd hmatch (by simp)
    | some ext =>
      rw [hend] at hmatch
      obtain ⟨pre, hpre, hnod⟩ := (afterLastDotList_spec f.data ext).mp hend
      exact ⟨pre, ext, hpre, hnod, hmatch⟩
  · rintro ⟨pre, ext, hpre, hnod, hmem⟩
    unfold allowed_file
    rw [Bool.and_eq_true]
    have hsome : afterLastDotList f.data = some ext :=
      (afterLastDotList_spec f.data ext).mpr ⟨pre, hpre, hnod⟩
    refine ⟨?_, by rw [hsome]; exact hmem⟩
    rw [hpre]
    simp [List.contains]

theorem cleanupLoop_no_fail (cutoff : Int) (l : List DirEntry)
    (h : ∀ e ∈ l, oldRemovable cutoff e = true → e.removeFails = false) :
    cleanupLoop cutoff l = (staleCount cutoff l, survivors cutoff l) := by
  induction l with
  | nil => rfl
  | cons e es ih =>
    have hes := fun x hx => h x (List.mem_cons_of_mem e hx)
    cases hd : e.isDir with
    | true =>
      have ho : oldRemovable cutoff e = false := by simp [oldRemovable, hd]
      simp [cleanupLoop, hd, ih hes, staleCount, survivors, List.filter_cons, ho]
    | false =>
      by_cases hm : e.mtime < cutoff
      · have ho : oldRemovable cutoff e = true := by simp [oldRemovable, hd, hm]
        have hrm : e.removeFails = false := h e (List.mem_cons_self e es) ho
        simp [cleanupLoop, hd, hm, hrm, ih hes, staleCount, survivors,
          List.filter_cons, ho]
      · have ho : oldRemovable cutoff e = false := by simp [oldRemovable, hm]
        simp [cleanupLoop, hd, hm, ih hes, staleCount, survivors,
          List.filter_cons, ho]

theorem cleanupLoop_abort (cutoff : Int) (pre : List DirEntry) (bad : DirEntry)
    (post : List DirEntry)
    (hpre : ∀ e ∈ pre, oldRemovable cutoff e = true → e.removeFails = false)
    (hbd : bad.isDir = false) (hbm : bad.mtime < cutoff)
    (hbf : bad.removeFails = true) :
    cleanupLoop cutoff (pre ++ bad :: post) =
      (staleCount cutoff pre, survivors cutoff pre ++ bad :: post) := by
  induction pre with
  | nil => simp [cleanupLoop, hbd, hbm, hbf, staleCount, survivors]
  | cons e es ih =>
    have hes := fun x hx => hpre x (List.mem_cons_of_mem e hx)
    cases hd : e.isDir with
    | true =>
      have ho : oldRemovable cutoff e = false := by simp [oldRemovable, hd]
      simp [cleanupLoop, hd, ih hes, staleCount, survivors, List.filter_cons, ho]
    | false =>
      by_cases hm : e.mtime < cutoff
      · have ho : oldRemovable cutoff e = true := by simp [oldRemovable, hd, hm]
        have hrm : e.removeFails = false := hpre e (List.mem_cons_self e es) ho
        simp [cleanupLoop, hd, hm, hrm, ih hes, staleCount, survivors,
          List.filter_cons, ho]
      · have ho : oldRemovable cutoff e = false := by simp [oldRemovable, hm]
        simp [cleanupLoop, hd, hm, ih hes, staleCount, survivors,
          List.filter_cons, ho]

/-- C4 counterexample: with two stale files where removing the first one
raises `OSError`, the sweep returns 0 and leaves the second stale file in
place — the exception escapes the loop, so entries after the failing one
are not processed, contrary to the claim that the error "does not abort
the sweep". -/
theorem c4_sweep_abort_counterexample :
    cleanup_old_files 7200
      ⟨true, false, [⟨"a", false, 0, true⟩, ⟨"b", false, 0, false⟩]⟩ =
      (0, ⟨true, false, [⟨"a", false, 0, true⟩, ⟨"b", false, 0, false⟩]⟩) := by
  rfl

/-- C4 (amended): when the folder is listable and no removal fails,
`cleanup_old_files` deletes every non-directory entry older than the
one-hour threshold and returns their count; a removal error is caught
outside the loop, so the function returns the count removed before the
error, the failing entry and every entry after it surviving untouched. -/
theorem c4_cleanup_old_files_behavior :
    (∀ (now : Int) (st : FolderState), st.present = true → st.listdirFails = false →
      (∀ e ∈ st.entries, oldRemovable (now - CLEANUP_THRESHOLD_SECONDS) e = true →
        e.removeFails = false) →
      cleanup_old_files now st =
        (staleCount (now - CLEANUP_THRESHOLD_SECONDS) st.entries,
          { st with entries := survivors (now - CLEANUP_THRESHOLD_SECONDS) st.entries })) ∧
    (∀ (now : Int) (st : FolderState) (pre : List DirEntry) (bad : DirEntry)
        (post : List DirEntry),
      st.present = true → st.listdirFails = false →
      st.entries = pre ++ bad :: post →
      (∀ e ∈ pre, oldRemovable (now - CLEANUP_THRESHOLD_SECONDS) e = true →
        e.removeFails = false) →
      bad.isDir = false → bad.mtime < now - CLEANUP_THRESHOLD_SECONDS →
      bad.removeFails = true →
      cleanup_old_files now st =
        (staleCount (now - CLEANUP_THRESHOLD_SECONDS) pre,
          { st with entries :=
              survivors (now - CLEANUP_THRESHOLD_SECONDS) pre ++ bad :: post })) := by
  constructor
  · intro now st hp hl hnf
    simp [cleanup_old_files, hp, hl, cleanupLoop_no_fail _ _ hnf]
  · intro now st pre bad post hp hl hent hnf hbd hbm hbf
    simp [cleanup_old_files, hp, hl, hent,
      cleanupLoop_abort _ _ _ _ hnf hbd hbm hbf]

/-- C4 witness: the amended theorem instantiated on a concrete folder,
one run with no failures and one run aborted by a failing removal. -/
theorem c4_cleanup_old_files_behavior_witness :
    cleanup_old_files 7200
      ⟨true, false, [⟨"a", false, 0, false⟩, ⟨"b", false, 7000, false⟩]⟩ =
      (1, ⟨true, false, [⟨"b", false, 7000, false⟩]⟩) ∧
    cleanup_old_files 7200
      ⟨true, false, [⟨"ok", false, 0, false⟩, ⟨"bad", false, 0, true⟩,
        ⟨"later", false, 0, false⟩]⟩ =
      (1, ⟨true, false, [⟨"bad", false, 0, true⟩, ⟨"later", false, 0, false⟩]⟩) := by
  constructor
  · have h := c4_cleanup_old_files_behavior.1 7200
      ⟨true, false, [⟨"a", false, 0, false⟩, ⟨"b", false, 7000, false⟩]⟩
      rfl rfl (by decide)
    simpa using h
  · have h := c4_cleanup_old_files_behavior.2 7200
      ⟨true, false, [⟨"ok", false, 0, false⟩, ⟨"bad", false, 0, true⟩,
        ⟨"later", false, 0, false⟩]⟩
      [⟨"ok", false, 0, false⟩] ⟨"bad", false, 0, true⟩ [⟨"later", false, 0, false⟩]
      rfl rfl rfl (by decide) rfl (by decide) rfl
    simpa using h

/-- C8: on a folder holding exactly one stale file and one fresh file
(no removal failures), `cleanup_old_files` returns 1, removes the stale
file and keeps the fresh one. -/
theorem c8_cleanup_removes_only_old (now : Int) (o n : DirEntry)
    (ho1 : o.isDir = false) (ho2 : o.mtime < now - CLEANUP_THRESHOLD_SECONDS)
    (ho3 : o.removeFails = false)
    (hn1 : n.isDir = false) (hn2 : ¬ n.mtime < now - CLEANUP_THRESHOLD_SECONDS) :
    cleanup_old_files now ⟨true, false, [o, n]⟩ = (1, ⟨true, false, [n]⟩) := by
  simp [cleanup_old_files, cleanupLoop, ho1, ho2, ho3, hn1, hn2]

/-- C8 witness: the concrete folder from the test scenario. -/
theorem c8_cleanup_removes_only_old_witness :
    cleanup_old_files 7200
      ⟨true, false, [⟨"old", false, 1800, false⟩, ⟨"new", false, 5400, false⟩]⟩ =
      (1, ⟨true, false, [⟨"new", false, 5400, false⟩]⟩) :=
  c8_cleanup_removes_only_old 7200 ⟨"old", false, 1800, false⟩
    ⟨"new", false, 5400, false⟩ rfl (by decide) rfl rfl (by decide)

theorem mergeSaveLoop_ok (uuids : Nat → String) :
    ∀ (files : List FilePart) (i : Nat),
      (∀ f ∈ files, allowed_file f.filename = true) →
      ∃ ps, mergeSaveLoop uuids files i = Except.ok ps ∧ ps.length = files.length
  | [], _, _ => ⟨[], rfl, rfl⟩
  | f :: fs, i, h => by
    have hf : allowed_file f.filename = true := h f (List.mem_cons_self f fs)
    obtain ⟨ps, hps, hlen⟩ :=
      mergeSaveLoop_ok uuids fs (i + 1) (fun x hx => h x (List.mem_cons_of_mem f hx))
    exact ⟨mkUploadPath (uuids i) "" f.filename :: ps,
      by simp [mergeSaveLoop, hf, hps], by simp [hlen]⟩

theorem mergeSaveLoop_error (uuids : Nat → String) :
    ∀ (files : List FilePart) (i : Nat),
      (∃ f ∈ files, allowed_file f.filename = false) →
      ∃ r, mergeSaveLoop uuids files i = Except.error r
  | [], _, h => absurd h (by simp)
  | f :: fs, i, h => by
    cases hf : allowed_file f.filename with
    | false => exact ⟨(f.filename, []), by simp [mergeSaveLoop, hf]⟩
    | true =>
      have htail : ∃ x ∈ fs, allowed_file x.filename = false := by
        obtain ⟨x, hx, hxf⟩ := h
        rcases List.mem_cons.mp hx with he | hm
        · rw [he, hf] at hxf
          exact absurd hxf (by simp)
        · exact ⟨x, hm, hxf⟩
      obtain ⟨r, hr⟩ := mergeSaveLoop_error uuids fs (i + 1) htail
      exact ⟨(r.1, mkUploadPath (uuids i) "" f.filename :: r.2),
        by simp [mergeSaveLoop, hf, hr]⟩

/-- C6: a `/merge` request in which some uploaded file has a disallowed
extension always gets a 400, the merge operation is never invoked, and
no saved temp file is left on disk (the paths saved before the invalid
file are cleaned up before returning). -/
theorem c6_merge_invalid_file_aborts (files : List FilePart)
    (output_format : Option String) (env : MergeEnv)
    (h : ∃ f ∈ files, allowed_file f.filename = false) :
    (merge_audio files output_format env).resp.status = 400 ∧
    (merge_audio files output_format env).invoked = 0 ∧
    (merge_audio files output_format env).leftover = [] := by
  unfold merge_audio
  by_cases hlen : files.length < 2
  · simp [hlen, Resp.status]
  · by_cases hfal : falsy output_format = true
    · simp [hlen, hfal, Resp.status]
    · obtain ⟨r, hr⟩ := mergeSaveLoop_error env.uuids files 0 h
      simp [hlen, hfal, hr, Resp.status]

/-- C6 witness: two files where the second is a PDF. -/
theorem c6_merge_invalid_file_aborts_witness :
    (merge_audio [⟨"a.wav"⟩, ⟨"doc.pdf"⟩] (some "ogg")
      ⟨fun _ => "u", LibOutcome.ok "p"⟩).resp.status = 400 ∧
    (merge_audio [⟨"a.wav"⟩, ⟨"doc.pdf"⟩] (some "ogg")
      ⟨fun _ => "u", LibOutcome.ok "p"⟩).invoked = 0 ∧
    (merge_audio [⟨"a.wav"⟩, ⟨"doc.pdf"⟩] (some "ogg")
      ⟨fun _ => "u", LibOutcome.ok "p"⟩).leftover = [] :=
  c6_merge_invalid_file_aborts [⟨"a.wav"⟩, ⟨"doc.pdf"⟩] (some "ogg")
    ⟨fun _ => "u", LibOutcome.ok "p"⟩
    ⟨⟨"doc.pdf"⟩, by simp, by decide⟩

/-- C5 counterexample: two files with allowed extensions but no
`output_format` field — the handler returns 400 without invoking the
merge operation, refuting the claim that two or more valid files always
lead to exactly one merge invocation. -/
theorem c5_missing_output_format_counterexample :
    (merge_audio [⟨"a.wav"⟩, ⟨"b.wav"⟩] none
      ⟨fun _ => "u", LibOutcome.ok "p"⟩).invoked = 0 ∧
    (merge_audio [⟨"a.wav"⟩, ⟨"b.wav"⟩] none
      ⟨fun _ => "u", LibOutcome.ok "p"⟩).resp =
      Resp.json 400 "Missing output_format parameter" := by
  constructor <;> rfl

/-- C5 (amended): `/merge` with exactly one file always yields 400 with
the "At least 2 files required for merging" message and no merge
invocation; with two or more files with allowed extensions and a
non-empty `output_format`, the merge operation is invoked exactly once. -/
theorem c5_merge_file_count :
    (∀ (files : List FilePart) (output_format : Option String) (env : MergeEnv),
      files.length = 1 →
      (merge_audio files output_format env).resp =
        Resp.json 400 "At least 2 files required for merging" ∧
      (merge_audio files output_format env).invoked = 0) ∧
    (∀ (files : List FilePart) (of : String) (env : MergeEnv),
      2 ≤ files.length →
      (∀ f ∈ files, allowed_file f.filename = true) →
      of ≠ "" →
      (merge_audio files (some of) env).invoked = 1) := by
  constructor
  · intro files output_format env h1
    have hlen : files.length < 2 := by omega
    simp [merge_audio, hlen]
  · intro files of env hlen hall hof
    have hlt : ¬ files.length < 2 := by omega
    have hfal : ¬ falsy (some of) = true := by
      simp [falsy, hof]
    obtain ⟨ps, hps, hplen⟩ := mergeSaveLoop_ok env.uuids files 0 hall
    have hplt : ¬ ps.length < 2 := by omega
    unfold merge_audio
    rw [if_neg hlt, if_neg hfal, hps]
    cases hmf : merge_files env.lib ps (strLower (getStr (some of))) with
    | ok p => simp [hmf]
    | error m => simp [hmf]

/-- C5 witness: the amended theorem instantiated with one file and with
two valid files. -/
theorem c5_merge_file_count_witness :
    ((merge_audio [⟨"a.wav"⟩] (some "mp3")
        ⟨fun _ => "u", LibOutcome.ok "p"⟩).resp =
      Resp.json 400 "At least 2 files required for merging" ∧
     (merge_audio [⟨"a.wav"⟩] (some "mp3")
        ⟨fun _ => "u", LibOutcome.ok "p"⟩).invoked = 0) ∧
    (merge_audio [⟨"a.wav"⟩, ⟨"b.mp3"⟩] (some "mp3")
      ⟨fun _ => "u", LibOutcome.ok "p"⟩).invoked = 1 :=
  ⟨c5_merge_file_count.1 [⟨"a.wav"⟩] (some "mp3")
      ⟨fun _ => "u", LibOutcome.ok "p"⟩ rfl,
   c5_merge_file_count.2 [⟨"a.wav"⟩, ⟨"b.mp3"⟩] "mp3"
      ⟨fun _ => "u", LibOutcome.ok "p"⟩ (by decide) (by decide)
      (by decide)⟩

theorem formatSupported_of_contains (s : String)
    (h : supported_formats.contains s = true) : formatSupported s = true := by
  have hm : s ∈ supported_formats := by simpa [List.contains] using h
  fin_cases hm <;> decide

theorem formatSupported_of_allowed (s : String)
    (h : ALLOWED_EXTENSIONS.contains s = true) : formatSupported s = true := by
  have hm : s ∈ ALLOWED_EXTENSIONS := by simpa [List.contains] using h
  fin_cases hm <;> decide

/-- C1 counterexample: an `/export` request with an allowed-extension
file, non-empty fields and an integer sample rate, whose `format` value
`pcm` is not checked at the boundary: the processor IS invoked and the
response is a 500 with the processor's `Unsupported format` message,
not the claimed 200 attachment. -/
theorem c1_export_not_200_counterexample :
    (export_audio (some ⟨"a.wav"⟩) (some "pcm") (some "192k") (some "44100")
      ⟨"u", LibOutcome.ok "out"⟩).resp =
      Resp.json 500 (unsupportedFormatMsg "pcm") := by
  rfl

/-- C1 (amended): for every `/export` request supplying an
allowed-extension file and non-empty `format`, `bitrate` and
`sample_rate` fields where `sample_rate` parses as an integer, provided
the lowercased format is in the processor's supported set and the
external export succeeds, the handler invokes the export operation
exactly once and returns a 200 attachment named `export.<fmt>`, `<fmt>`
being the lowercased requested format. -/
theorem c1_export_success (f : FilePart) (fmt br sr uuid p : String) (n : Int)
    (hall : allowed_file f.filename = true)
    (hfmt : fmt ≠ "") (hbr : br ≠ "") (hsr : sr ≠ "")
    (hparse : pyInt sr = some n)
    (hsupp : supported_formats.contains (strLower fmt) = true) :
    export_audio (some f) (some fmt) (some br) (some sr) ⟨uuid, LibOutcome.ok p⟩ =
      ⟨Resp.fileAttachment p ("export." ++ strLower fmt), 1,
        [mkUploadPath uuid "" f.filename, p], []⟩ := by
  have h1 : falsy (some fmt) = false := by simp [falsy, hfmt]
  have h2 : falsy (some br) = false := by simp [falsy, hbr]
  have h3 : falsy (some sr) = false := by simp [falsy, hsr]
  have hfs : formatSupported (strLower fmt) = true :=
    formatSupported_of_contains _ hsupp
  simp [export_audio, h1, h2, h3, hall, getStr, hparse,
    export_with_settings, validate_format, hfs]

/-- C1 witness: a concrete successful export of `a.wav` to `MP3`. -/
theorem c1_export_success_witness :
    export_audio (some ⟨"a.wav"⟩) (some "MP3") (some "192k") (some "44100")
      ⟨"u", LibOutcome.ok "out.mp3"⟩ =
      ⟨Resp.fileAttachment "out.mp3" "export.mp3", 1,
        ["uploads/u_a.wav", "out.mp3"], []⟩ :=
  (c1_export_success ⟨"a.wav"⟩ "MP3" "192k" "44100" "u" "out.mp3" 44100
    (by decide) (by decide) (by decide) (by decide) rfl (by decide)).trans
    (by decide)

/-- C2 counterexample: an `/export` request whose `format` value `xyz`
is in no supported set still invokes `export_with_settings` (which then
rejects it) and the response status is 500, not the claimed 400 with no
invocation. -/
theorem c2_unsupported_format_counterexample :
    (export_audio (some ⟨"a.wav"⟩) (some "xyz") (some "192k") (some "44100")
      ⟨"u", LibOutcome.ok "out"⟩).invoked = 1 ∧
    (export_audio (some ⟨"a.wav"⟩) (some "xyz") (some "192k") (some "44100")
      ⟨"u", LibOutcome.ok "out"⟩).resp.status = 500 := by
  constructor <;> rfl

/-- C2 (amended): only `/convert` rejects an unsupported format at the
boundary — any request whose lowercased `target_format` is outside the
allowed set gets a 400 and never reaches the processor. `/merge` and
`/export` pass the format through: with otherwise-valid inputs the
processor is invoked once and its `Unsupported format` error message is
returned with the status produced by each endpoint's keyword
classifier. -/
theorem c2_format_validation :
    (∀ (file : Option FilePart) (tf : Option String) (env : ReqEnv),
      ALLOWED_EXTENSIONS.contains (strLower (getStr tf)) = false →
      (convert_audio file tf env).resp.status = 400 ∧
      (convert_audio file tf env).invoked = 0) ∧
    (∀ (files : List FilePart) (of : String) (env : MergeEnv),
      2 ≤ files.length →
      (∀ f ∈ files, allowed_file f.filename = true) →
      of ≠ "" →
      formatSupported (strLower of) = false →
      (merge_audio files (some of) env).invoked = 1 ∧
      (merge_audio files (some of) env).resp =
        Resp.json (classify mergeKeywords (unsupportedFormatMsg (strLower of)))
          (unsupportedFormatMsg (strLower of))) ∧
    (∀ (f : FilePart) (fmt br sr : String) (n : Int) (env : ReqEnv),
      allowed_file f.filename = true →
      fmt ≠ "" → br ≠ "" → sr ≠ "" →
      pyInt sr = some n →
      formatSupported (strLower fmt) = false →
      (export_audio (some f) (some fmt) (some br) (some sr) env).invoked = 1 ∧
      (export_audio (some f) (some fmt) (some br) (some sr) env).resp =
        Resp.json (classify exportKeywords (unsupportedFormatMsg (strLower fmt)))
          (unsupportedFormatMsg (strLower fmt))) := by
  refine ⟨?_, ?_, ?_⟩
  · intro file tf env hns
    have hns' : strLower (getStr tf) ∉ ALLOWED_EXTENSIONS := by
      simpa [List.contains] using hns
    cases file with
    | none => exact ⟨rfl, rfl⟩
    | some f =>
      unfold convert_audio
      cases hfn : f.filename == "" with
      | true => simp [hfn, Resp.status]
      | false =>
        cases hfal : falsy tf with
        | true => simp [hfn, hfal, Resp.status]
        | false =>
          cases hall : allowed_file f.filename with
          | false => simp [hfn, hfal, hall, Resp.status]
          | true => simp [hfn, hfal, hall, hns', Resp.status]
  · intro files of env hlen hall hof hns
    have hlt : ¬ files.length < 2 := by omega
    have hfal : ¬ falsy (some of) = true := by simp [falsy, hof]
    obtain ⟨ps, hps, hplen⟩ := mergeSaveLoop_ok env.uuids files 0 hall
    have hplt : ¬ ps.length < 2 := by omega
    unfold merge_audio
    rw [if_neg hlt, if_neg hfal, hps]
    simp [merge_files, hplt, validate_format, getStr, hns]
  · intro f fmt br sr n env hallow hfmt hbr hsr hparse hns
    have h1 : falsy (some fmt) = false := by simp [falsy, hfmt]
    have h2 : falsy (some br) = false := by simp [falsy, hbr]
    have h3 : falsy (some sr) = false := by simp [falsy, hsr]
    simp [export_audio, h1, h2, h3, hallow, getStr, hparse,
      export_with_settings, validate_format, hns]

/-- C2 witness: the amended theorem instantiated at `/convert` with
`aac`, `/merge` with `aac` on two valid files, and `/export` with `aac`. -/
theorem c2_format_validation_witness :
    ((convert_audio (some ⟨"a.wav"⟩) (some "aac")
        ⟨"u", LibOutcome.ok "p"⟩).resp.status = 400 ∧
     (convert_audio (some ⟨"a.wav"⟩) (some "aac")
        ⟨"u", LibOutcome.ok "p"⟩).invoked = 0) ∧
    (merge_audio [⟨"a.wav"⟩, ⟨"b.wav"⟩] (some "aac")
      ⟨fun _ => "u", LibOutcome.ok "p"⟩).invoked = 1 ∧
    (export_audio (some ⟨"a.wav"⟩) (some "aac") (some "192k") (some "44100")
      ⟨"u", LibOutcome.ok "p"⟩).invoked = 1 :=
  ⟨c2_format_validation.1 (some ⟨"a.wav"⟩) (some "aac")
      ⟨"u", LibOutcome.ok "p"⟩ (by decide),
   (c2_format_validation.2.1 [⟨"a.wav"⟩, ⟨"b.wav"⟩] "aac"
      ⟨fun _ => "u", LibOutcome.ok "p"⟩ (by decide) (by decide) (by decide)
      (by decide)).1,
   (c2_format_validation.2.2 ⟨"a.wav"⟩ "aac" "192k" "44100" 44100
      ⟨"u", LibOutcome.ok "p"⟩ (by decide) (by decide) (by decide) (by decide)
      rfl (by decide)).1⟩

/-- C3 counterexample: the same exception message
`Invalid file type: doc.pdf` raised by the processing layer is answered
with 400 by `/merge` but with 500 by `/export` and 500 by `/convert` —
the keyword classification is not uniform across the three endpoints
(`/convert` does no matching at all, and the two keyword lists differ). -/
theorem c3_nonuniform_classification_counterexample :
    (merge_audio [⟨"a.wav"⟩, ⟨"b.wav"⟩] (some "ogg")
      ⟨fun _ => "u", LibOutcome.fail "Invalid file type: doc.pdf"⟩).resp =
      Resp.json 400 "Invalid file type: doc.pdf" ∧
    (export_audio (some ⟨"a.wav"⟩) (some "flac") (some "1411k") (some "44100")
      ⟨"u", LibOutcome.fail "Invalid file type: doc.pdf"⟩).resp =
      Resp.json 500 "Invalid file type: doc.pdf" ∧
    (convert_audio (some ⟨"a.wav"⟩) (some "mp3")
      ⟨"u", LibOutcome.fail "Invalid file type: doc.pdf"⟩).resp =
      Resp.json 500 "Invalid file type: doc.pdf" := by
  refine ⟨rfl, rfl, rfl⟩

/-- C3 (amended): for an exception raised by the processing layer after
validation, `/convert` always answers 500 with the exception's message;
`/merge` answers 400 exactly when the message contains one of
`Invalid file`, `At least 2 files`, `Missing output_format`, else 500;
`/export` answers 400 exactly when the message contains one of
`Sample rate must be`, `Missing required`, else 500. The three
endpoints do not share one classification. -/
theorem c3_exception_classification :
    (∀ (f : FilePart) (tf : String) (uuid m : String),
      f.filename ≠ "" → allowed_file f.filename = true → tf ≠ "" →
      ALLOWED_EXTENSIONS.contains (strLower tf) = true →
      (convert_audio (some f) (some tf) ⟨uuid, LibOutcome.fail m⟩).resp =
        Resp.json 500 m) ∧
    (∀ (files : List FilePart) (of : String) (uuids : Nat → String) (m : String),
      2 ≤ files.length →
      (∀ f ∈ files, allowed_file f.filename = true) →
      of ≠ "" → formatSupported (strLower of) = true →
      (merge_audio files (some of) ⟨uuids, LibOutcome.fail m⟩).resp =
        Resp.json (classify mergeKeywords m) m) ∧
    (∀ (f : FilePart) (fmt br sr uuid m : String) (n : Int),
      allowed_file f.filename = true →
      fmt ≠ "" → br ≠ "" → sr ≠ "" → pyInt sr = some n →
      formatSupported (strLower fmt) = true →
      (export_audio (some f) (some fmt) (some br) (some sr)
        ⟨uuid, LibOutcome.fail m⟩).resp =
        Resp.json (classify exportKeywords m) m) := by
  refine ⟨?_, ?_, ?_⟩
  · intro f tf uuid m hfn hall htf hin
    have hfne : (f.filename == "") = false := by simp [hfn]
    have hfal : falsy (some tf) = false := by simp [falsy, htf]
    have hin' : strLower tf ∈ ALLOWED_EXTENSIONS := by
      simpa [List.contains] using hin
    have hfs : formatSupported (strLower tf) = true :=
      formatSupported_of_allowed _ hin
    simp [convert_audio, hfne, hfal, hall, getStr, hin',
      convert_format, validate_format, hfs]
  · intro files of uuids m hlen hall hof hfs
    have hlt : ¬ files.length < 2 := by omega
    have hfal : ¬ falsy (some of) = true := by simp [falsy, hof]
    obtain ⟨ps, hps, hplen⟩ := mergeSaveLoop_ok uuids files 0 hall
    have hplt : ¬ ps.length < 2 := by omega
    unfold merge_audio
    rw [if_neg hlt, if_neg hfal, hps]
    simp [merge_files, hplt, validate_format, getStr, hfs]
  · intro f fmt br sr uuid m n hall hfmt hbr hsr hparse hfs
    have h1 : falsy (some fmt) = false := by simp [falsy, hfmt]
    have h2 : falsy (some br) = false := by simp [falsy, hbr]
    have h3 : falsy (some sr) = false := by simp [falsy, hsr]
    simp [export_audio, h1, h2, h3, hall, getStr, hparse,
      export_with_settings, validate_format, hfs]

/-- C3 witness: the amended theorem instantiated with the message
`disk full` (no keyword matches: 500 everywhere) on all three
endpoints. -/
theorem c3_exception_classification_witness :
    (convert_audio (some ⟨"a.wav"⟩) (some "mp3")
      ⟨"u", LibOutcome.fail "disk full"⟩).resp = Resp.json 500 "disk full" ∧
    (merge_audio [⟨"a.wav"⟩, ⟨"b.wav"⟩] (some "ogg")
      ⟨fun _ => "u", LibOutcome.fail "disk full"⟩).resp =
      Resp.json 500 "disk full" ∧
    (export_audio (some ⟨"a.wav"⟩) (some "flac") (some "1411k") (some "44100")
      ⟨"u", LibOutcome.fail "disk full"⟩).resp = Resp.json 500 "disk full" :=
  ⟨c3_exception_classification.1 ⟨"a.wav"⟩ "mp3" "u" "disk full"
      (by decide) (by decide) (by decide) (by decide),
   (c3_exception_classification.2.1 [⟨"a.wav"⟩, ⟨"b.wav"⟩] "ogg"
      (fun _ => "u") "disk full" (by decide) (by decide) (by decide)
      (by decide)).trans (by decide),
   (c3_exception_classification.2.2 ⟨"a.wav"⟩ "flac" "1411k" "44100" "u"
      "disk full" 44100 (by decide) (by decide) (by decide) (by decide)
      rfl (by decide)).trans (by decide)⟩

/-- C7: `trim_audio` raises a `ValueError` whenever `start_ms < 0`,
`end_ms` exceeds the duration, or `start_ms ≥ end_ms`; and on a 5000 ms
clip, trimming 1000–4000 into a supported format succeeds with output
`{uuid}_trimmed.{fmt}` — a name containing `_trimmed` and ending in the
requested extension. -/
theorem c7_trim_audio_validation :
    (∀ (folder uuid : String) (dur s e : Int) (fmt : String),
      (s < 0 ∨ e > dur ∨ s ≥ e) →
      ∃ msg, trim_audio folder uuid dur s e fmt =
        Except.error (ProcError.valueError msg)) ∧
    (∀ (folder uuid fmt : String), formatSupported fmt = true →
      trim_audio folder uuid 5000 1000 4000 fmt =
        Except.ok (folder ++ "/" ++ uuid ++ "_" ++ "trimmed" ++ "." ++ fmt)) := by
  constructor
  · intro folder uuid dur s e fmt h
    unfold trim_audio
    cases hv : validate_format fmt with
    | error m => exact ⟨m, rfl⟩
    | ok u =>
      have hcond : (decide (s < 0) || decide (e > dur) || decide (s ≥ e)) = true := by
        rcases h with h | h | h <;> simp [h]
      exact ⟨"Invalid time range: " ++ toString s ++ "-" ++ toString e ++
        "ms (audio duration: " ++ toString dur ++ "ms)", by simp [hcond]⟩
  · intro folder uuid fmt hf
    simp [trim_audio, validate_format, hf, generate_output_path]

/-- C7 witness: the validation branch at `trim(4000, 1000)` and the
success branch at `trim(1000, 4000)` into `wav` on a 5000 ms clip. -/
theorem c7_trim_audio_validation_witness :
    (∃ msg, trim_audio "out" "u" 5000 4000 1000 "wav" =
      Except.error (ProcError.valueError msg)) ∧
    trim_audio "out" "u" 5000 1000 4000 "wav" =
      Except.ok "out/u_trimmed.wav" :=
  ⟨c7_trim_audio_validation.1 "out" "u" 5000 4000 1000 "wav"
      (Or.inr (Or.inr (by decide))),
   (c7_trim_audio_validation.2 "out" "u" "wav" (by decide)).trans
     (congrArg Except.ok (by decide))⟩

/-- C9: `/metadata` leaves no temp file behind: whatever the request and
the outcome of `get_audio_info` (success or exception), every path the
handler saved has been removed by the `finally` block when the handler
finishes. -/
theorem c9_metadata_temp_file_removed (file : Option FilePart) (env : MetaEnv) :
    (get_metadata file env).leftover = [] ∧
    (∀ p ∈ (get_metadata file env).saved, p ∉ (get_metadata file env).leftover) := by
  unfold get_metadata
  cases file with
  | none => exact ⟨rfl, by simp⟩
  | some f =>
    cases hall : allowed_file f.filename with
    | false => simp [hall]
    | true =>
      cases hinfo : env.info with
      | ok b => simp [hall, hinfo]
      | error m => simp [hall, hinfo]

/-- C9 witness: a concrete request whose `get_audio_info` raises; the
saved temp path is not among the leftover files. -/
theorem c9_metadata_temp_file_removed_witness :
    (get_metadata (some ⟨"a.mp3"⟩) ⟨"u", Except.error "boom"⟩).leftover = [] ∧
    "uploads/u_a.mp3" ∉
      (get_metadata (some ⟨"a.mp3"⟩) ⟨"u", Except.error "boom"⟩).leftover :=
  ⟨(c9_metadata_temp_file_removed (some ⟨"a.mp3"⟩) ⟨"u", Except.error "boom"⟩).1,
   (c9_metadata_temp_file_removed (some ⟨"a.mp3"⟩) ⟨"u", Except.error "boom"⟩).2
     "uploads/u_a.mp3" (by decide)⟩

end WebAmpers
